import Mathlib

/-! ## sonos-enqueue: a shallow embedding of `main.go`

The program discovers Sonos players with one SSDP multicast query, resolves a
room name to a player URL by fetching every candidate's descriptor, and then
posts SOAP commands (clear queue, add URI to queue) to the player.

Go strings are modelled by Lean strings, Go errors by their text, a nil error
by `none`.  Everything the program obtains from the outside (the UDP socket,
the HTTP client, the standard-library parsers) is a field of `World`; the
program text itself is translated function by function.
-/

namespace Sonos

/-! ## Standard-library pieces used by the program -/

/-- An operand of a formatting call. -/
inductive Arg where
  | str (s : String)
  | int (i : Int)

/-- The text a verb produces for an operand: `%s` for strings (and errors),
`%d` for integers in decimal. -/
def formatArg (verb : Char) (a : Arg) : Option (List Char) :=
  match a with
  | .str s => if verb = 's' then some s.data else none
  | .int i => if verb = 'd' then some (toString i).data else none

/-- The fragment of `fmt.Sprintf` the program exercises: the verbs `%s` and
`%d`, each consuming the next operand; every other character is copied.  The
flag tells that the previous character was the `%` that opens a verb.  (A verb
without a fitting operand never occurs in the program; it is copied unchanged
here.) -/
def sprintfAux : Bool → List Char → List Arg → List Char
  | false, [], _ => []
  | true, [], _ => ['%']
  | false, c :: fmt, args =>
    if c = '%' then sprintfAux true fmt args else c :: sprintfAux false fmt args
  | true, v :: fmt, [] => '%' :: v :: sprintfAux false fmt []
  | true, v :: fmt, a :: args =>
    match formatArg v a with
    | some out => out ++ sprintfAux false fmt args
    | none => '%' :: v :: sprintfAux false fmt (a :: args)

/-- The formatting call `fmt.Sprintf(format, args...)`. -/
def Sprintf (format : String) (args : List Arg) : String :=
  String.mk (sprintfAux false format.data args)

/-- The replacement table of `html.EscapeString`. -/
def htmlEscaper : List (Char × String) :=
  [('&', "&amp;"), ('\x27', "&#39;"), ('<', "&lt;"), ('>', "&gt;"), ('"', "&#34;")]

/-- One character through the replacement table. -/
def escapeChar (c : Char) : List Char :=
  match htmlEscaper.lookup c with
  | some r => r.data
  | none => [c]

/-- The list form of `html.EscapeString`. -/
def escapeChars : List Char → List Char
  | [] => []
  | c :: cs => escapeChar c ++ escapeChars cs

/-- The function `html.EscapeString`: every occurrence of one of the five
special characters is replaced by its entity. -/
def EscapeString (s : String) : String :=
  String.mk (escapeChars s.data)

/-- The type `http.Header`: a map from (canonical) header names to value lists. -/
abbrev Header := List (String × List String)

/-- The map index expression `h[key]`: the values stored under `key`, nil when absent. -/
def Header.values (h : Header) (key : String) : List String :=
  (h.lookup key).getD []

/-- The method `Header.Get`: the first value stored under `key`, or the empty string.
(The only key the program passes, "Location", is already in canonical form.) -/
def Header.Get (h : Header) (key : String) : String :=
  (h.values key).headD ""

/-- The method `Header.Set` for a key in canonical form, and the direct map
assignment `h[key] = []string{value}`. -/
def Header.Set (h : Header) (key value : String) : Header :=
  (key, [value]) :: h.filter (fun kv => kv.1 != key)

/-- The fields of `url.URL`. -/
structure URL where
  Scheme : String
  Opaque : String
  User : String
  Host : String
  Path : String
  RawPath : String
  RawQuery : String
  Fragment : String
  deriving DecidableEq, Repr

/-- An HTTP request as handed to the client. -/
structure Request where
  Method : String
  URL : String
  Header : Header
  Body : String
  deriving DecidableEq, Repr

/-- The result of `http.ReadResponse`, reduced to what `Search` reads. -/
structure Response where
  Header : Header
  deriving DecidableEq, Repr

/-- The struct `device` of the program. -/
structure device where
  RoomName : String
  deriving DecidableEq, Repr

/-- One return of `conn.ReadFrom` in the receive loop. -/
inductive ReadResult where
  | data (buf : String)
  | timeout
  | failure (msg : String)
  deriving DecidableEq, Repr

/-- Everything outside the program text.  `reads` lists the successive returns
of `conn.ReadFrom` before the deadline; when it is exhausted the deadline
trips and the read times out.  `httpGet n` and `httpDo n` answer the call made
after `n` earlier calls of the same kind, so the network may answer the same
request differently each time. -/
structure World where
  listenUDP : Option String
  resolveUDPAddr : String → Option String
  writeTo : String → String → Option String
  reads : List ReadResult
  readResponse : String → Except String Response
  urlParse : String → Except String URL
  urlString : URL → String
  httpGet : Nat → String → Except String String
  xmlDecode : String → device × Option String
  httpDo : Nat → Request → Except String Int

/-! ## Search -/

/-- The datagram built by `Search`: `strings.Join` of the five lines with CRLF. -/
def searchRequest (query : String) : String :=
  "\r\n".intercalate
    [ "M-SEARCH * HTTP/1.1",
      "HOST: 239.255.255.250:1900",
      "MAN: \"ssdp:discover\"",
      "ST: " ++ query,
      "MX: 1" ]

/-- The inner loop of `Search` over `resp.Header["St"]`: append the header on
the first value equal to the query and break. -/
def appendIfMatch (query : String) (hdr : Header) : List String → List Header → List Header
  | [], devices => devices
  | head :: rest, devices =>
    if head = query then devices ++ [hdr] else appendIfMatch query hdr rest devices

/-- How a call of `Search` ends. -/
inductive SearchResult where
  | returned (devices : List Header)
  | failed (err : String)
  | panicked
  deriving DecidableEq, Repr

/-- The receive loop of `Search`.  After a failed `http.ReadResponse` the error
is logged and `resp`, which is nil, is dereferenced by `resp.Body.Close()`. -/
def searchLoop (w : World) (query : String) :
    List ReadResult → List Header → List String → SearchResult × List String
  | [], devices, log => (.returned devices, log)
  | .timeout :: _, devices, log => (.returned devices, log)
  | .failure msg :: _, devices, log =>
    (.returned devices, log ++ [Sprintf "ReadFrom error: %s" [.str msg]])
  | .data buf :: rest, devices, log =>
    match w.readResponse buf with
    | .error e => (.panicked, log ++ [Sprintf "ReadResponse error: %s" [.str e]])
    | .ok resp =>
      searchLoop w query rest
        (appendIfMatch query resp.Header (resp.Header.values "St") devices) log

/-- The function `Search`: the result and the lines logged. -/
def Search (w : World) (query : String) : SearchResult × List String :=
  match w.listenUDP with
  | some e => (.failed e, [])
  | none =>
    let req := searchRequest query
    match w.resolveUDPAddr "239.255.255.250:1900" with
    | some e => (.failed e, [])
    | none =>
      match w.writeTo req "239.255.255.250:1900" with
      | some e => (.failed e, [])
      | none => searchLoop w query w.reads [] []


/-! ## Device resolution -/

/-- The function `fetchDevice`: the decoded device or the error, and the lines
logged.  `n` counts the `http.Get` calls made before this one. -/
def fetchDevice (w : World) (n : Nat) (u : URL) : Except String device × List String :=
  match w.httpGet n (w.urlString u) with
  | .error e => (.error e, [])
  | .ok body =>
    match w.xmlDecode body with
    | (_, some e) => (.error e, [Sprintf "Decode %s: %s" [.str (w.urlString u), .str e]])
    | (d, none) => (.ok d, [])

/-- A control command `main` can invoke: `removeAllTracksFromQueue` or
`addURIToQueue` with an item. -/
inductive Command where
  | clear
  | enqueue (item : String)
  deriving DecidableEq, Repr

/-- What a phase of the run leaves behind: the lines logged, the URLs passed to
`http.Get`, the control commands invoked, each with the error it returned, and
the requests handed to `http.DefaultClient.Do`. -/
structure Effects where
  log : List String
  gets : List String
  cmds : List (Command × Option String)
  posts : List Request
  deriving DecidableEq, Repr

/-- No effect. -/
def Effects.none : Effects := ⟨[], [], [], []⟩

/-- One effect after another. -/
def Effects.append (a b : Effects) : Effects :=
  ⟨a.log ++ b.log, a.gets ++ b.gets, a.cmds ++ b.cmds, a.posts ++ b.posts⟩

/-- The scan of `main` over the candidates: `n` counts the descriptor fetches
made so far and `deviceURL` is the variable of that name. -/
def resolve (w : World) (flagDevice : String) :
    Nat → Option URL → List Header → Option URL × Effects
  | _, deviceURL, [] => (deviceURL, Effects.none)
  | n, deviceURL, f :: found =>
    match w.urlParse (f.Get "Location") with
    | .error e =>
      let r := resolve w flagDevice n deviceURL found
      (r.1, Effects.append
        ⟨[Sprintf "Parsing %s: %s" [.str (f.Get "Location"), .str e]], [], [], []⟩ r.2)
    | .ok u =>
      match fetchDevice w n u with
      | (.error e, lg) =>
        let r := resolve w flagDevice (n + 1) deviceURL found
        (r.1, Effects.append
          ⟨lg ++ [Sprintf "Fetching %s: %s" [.str (w.urlString u), .str e]],
            [w.urlString u], [], []⟩ r.2)
      | (.ok d, lg) =>
        let r := resolve w flagDevice (n + 1)
          (if d.RoomName = flagDevice then some u else deviceURL) found
        (r.1, Effects.append ⟨lg, [w.urlString u], [], []⟩ r.2)

/-! ## Control commands -/

/-- The path both control commands assign to their copy of the base URL. -/
def controlPath : String := "/MediaRenderer/AVTransport/Control"

/-- The function `http.NewRequest` for a valid method: it fails exactly when
the URL text does not parse. -/
def NewRequest (w : World) (method urlStr body : String) : Except String Request :=
  match w.urlParse urlStr with
  | .error e => .error e
  | .ok _ => .ok ⟨method, urlStr, [], body⟩

/-- The constant `body` of `removeAllTracksFromQueue`. -/
def removeAllBody : String :=
  "<?xml version=\"1.0\"?><s:Envelope xmlns:s=\"http://schemas.xmlsoap.org/soap/envelope/\" s:encodingStyle=\"http://schemas.xmlsoap.org/soap/encoding/\"><s:Body><u:RemoveAllTracksFromQueue xmlns:u=\"urn:schemas-upnp-org:service:AVTransport:1\"><InstanceID>0</InstanceID></u:RemoveAllTracksFromQueue></s:Body></s:Envelope>"

/-- The constant `bodyFmt` of `addURIToQueue`. -/
def bodyFmt : String :=
  "<?xml version=\"1.0\"?><s:Envelope xmlns:s=\"http://schemas.xmlsoap.org/soap/envelope/\" s:encodingStyle=\"http://schemas.xmlsoap.org/soap/encoding/\"><s:Body><u:AddURIToQueue xmlns:u=\"urn:schemas-upnp-org:service:AVTransport:1\"><InstanceID>0</InstanceID><EnqueuedURI>%s</EnqueuedURI><EnqueuedURIMetaData></EnqueuedURIMetaData><DesiredFirstTrackNumberEnqueued>0</DesiredFirstTrackNumberEnqueued><EnqueueAsNext>0</EnqueueAsNext></u:AddURIToQueue></s:Body></s:Envelope>"

/-- The function `removeAllTracksFromQueue`: the error returned (`none` for
nil) and the requests handed to the client.  `n` counts the earlier `Do` calls. -/
def removeAllTracksFromQueue (w : World) (n : Nat) (base : URL) :
    Option String × List Request :=
  let u : URL := { base with Path := controlPath }
  match NewRequest w "POST" (w.urlString u) removeAllBody with
  | .error e => (some e, [])
  | .ok req0 =>
    let req1 : Request :=
      { req0 with Header := req0.Header.Set "Content-Type" "text/xml; charset=\"utf-8\"" }
    let req : Request :=
      { req1 with Header := (req1.Header.Set "SOAPACTION"
          "urn:schemas-upnp-org:service:AVTransport:1#RemoveAllTracksFromQueue") }
    match w.httpDo n req with
    | .error e => (some e, [req])
    | .ok statusCode =>
      if statusCode ≠ 200 then (some (Sprintf "%s: %d" [.str u.Path, .int statusCode]), [req])
      else (none, [req])

/-- The body `addURIToQueue` posts for an item. -/
def addURIBody (item : String) : String :=
  Sprintf bodyFmt [.str (EscapeString item)]

/-- The function `addURIToQueue`: the error returned (`none` for nil) and the
requests handed to the client.  `n` counts the earlier `Do` calls. -/
def addURIToQueue (w : World) (n : Nat) (base : URL) (item : String) :
    Option String × List Request :=
  let u : URL := { base with Path := controlPath }
  let body := addURIBody item
  match NewRequest w "POST" (w.urlString u) body with
  | .error e => (some e, [])
  | .ok req0 =>
    let req1 : Request :=
      { req0 with Header := req0.Header.Set "Content-Type" "text/xml; charset=\"utf-8\"" }
    let req : Request :=
      { req1 with Header := (req1.Header.Set "SOAPACTION"
          "urn:schemas-upnp-org:service:AVTransport:1#AddURIToQueue") }
    match w.httpDo n req with
    | .error e => (some e, [req])
    | .ok statusCode =>
      if statusCode ≠ 200 then (some (Sprintf "%s: %d" [.str u.Path, .int statusCode]), [req])
      else (none, [req])

/-! ## main -/

/-- How the process ends: `main` returns, `log.Fatal` exits with status 1
after printing a message, or a runtime panic kills it. -/
inductive Exit where
  | success
  | fatal (msg : String)
  | panic
  deriving DecidableEq, Repr

/-- The command-line flags after `flag.Parse`. -/
structure Flags where
  device : String
  append : Bool
  args : List String
  deriving DecidableEq, Repr

/-- The loop of `main` over `flag.Args()`.  `n` counts the earlier `Do` calls. -/
def enqueueAll (w : World) (deviceURL : URL) : Nat → List String → Exit × Effects
  | _, [] => (.success, Effects.none)
  | n, item :: rest =>
    match w.urlParse item with
    | .error _ =>
      let r := enqueueAll w deviceURL n rest
      (r.1, Effects.append ⟨[Sprintf "Skipping non-url: %s" [.str item]], [], [], []⟩ r.2)
    | .ok _ =>
      match addURIToQueue w n deviceURL item with
      | (some e, reqs) =>
        (.fatal (Sprintf "Enqueueing %s: %s" [.str item, .str e]),
          ⟨[], [], [(.enqueue item, some e)], reqs⟩)
      | (none, reqs) =>
        let r := enqueueAll w deviceURL (n + reqs.length) rest
        (r.1, Effects.append ⟨[], [], [(.enqueue item, none)], reqs⟩ r.2)

/-- The command phase of `main`: the optional clear, then the enqueue loop. -/
def commands (w : World) (fl : Flags) (deviceURL : URL) : Exit × Effects :=
  if !fl.append then
    match removeAllTracksFromQueue w 0 deviceURL with
    | (some e, reqs) =>
      (.fatal (Sprintf "Clearing queue: %s: %s" [.str fl.device, .str e]),
        ⟨[], [], [(.clear, some e)], reqs⟩)
    | (none, reqs) =>
      let r := enqueueAll w deviceURL reqs.length fl.args
      (r.1, Effects.append ⟨[], [], [(.clear, none)], reqs⟩ r.2)
  else enqueueAll w deviceURL 0 fl.args

/-- The function `main`: how the process ends and what it did on the way. -/
def main (w : World) (fl : Flags) : Exit × Effects :=
  if fl.device = "" then
    (.fatal "You must use \x27-d <device>\x27 to specify a Sonos device", Effects.none)
  else
    match Search w "urn:schemas-upnp-org:device:ZonePlayer:1" with
    | (.panicked, lg) => (.panic, ⟨lg, [], [], []⟩)
    | (.failed err, lg) => (.fatal (Sprintf "Search: %s" [.str err]), ⟨lg, [], [], []⟩)
    | (.returned found, lg) =>
      if found.length = 0 then (.fatal "No Sonos devices found", ⟨lg, [], [], []⟩)
      else
        let r := resolve w fl.device 0 none found
        match r.1 with
        | none =>
          (.fatal (Sprintf "Device not found: %s" [.str fl.device]),
            Effects.append ⟨lg, [], [], []⟩ r.2)
        | some deviceURL =>
          let c := commands w fl deviceURL
          (c.1, Effects.append (Effects.append ⟨lg, [], [], []⟩ r.2) c.2)

/-! ## A sample world

A few players answer the query; the text of their answers, the parse of that
text and the descriptors they serve are fixed here so that the program can be
run on concrete inputs. -/

/-- The service type `main` searches for. -/
def zonePlayer : String := "urn:schemas-upnp-org:device:ZonePlayer:1"

/-- The header of a discovery answer with the given location. -/
def answerHeader (location : String) : Header :=
  [("Location", [location]), ("St", [zonePlayer])]

/-- A sample `http.ReadResponse`: four well-formed answers are recognised,
everything else is a malformed response, reported with the text quoted. -/
def sampleReadResponse (buf : String) : Except String Response :=
  if buf = "HTTP/1.1 200 OK\r\nLOCATION: http://10.0.0.2:1400/xml/device_description.xml\r\nST: urn:schemas-upnp-org:device:ZonePlayer:1\r\n\r\n" then
    .ok ⟨answerHeader "http://10.0.0.2:1400/xml/device_description.xml"⟩
  else if buf = "HTTP/1.1 200 OK\r\nLOCATION: http://10.0.0.3:1400/xml/device_description.xml\r\nST: urn:schemas-upnp-org:device:ZonePlayer:1\r\n\r\n" then
    .ok ⟨answerHeader "http://10.0.0.3:1400/xml/device_description.xml"⟩
  else if buf = "HTTP/1.1 200 OK\r\nLOCATION: http://10.0.0.9:80/desc.xml\r\nST: upnp:rootdevice\r\n\r\n" then
    .ok ⟨[("Location", ["http://10.0.0.9:80/desc.xml"]), ("St", ["upnp:rootdevice"])]⟩
  else if buf = "HTTP/1.1 200 OK\r\nLOCATION: http://10.0.0.4:xyz/desc.xml\r\nST: urn:schemas-upnp-org:device:ZonePlayer:1\r\n\r\n" then
    .ok ⟨answerHeader "http://10.0.0.4:xyz/desc.xml"⟩
  else .error ("malformed HTTP response \"" ++ buf ++ "\"")

/-- A sample `url.Parse`: the URLs of the sample world and three track URLs;
every other text, such as a location with a malformed port, is rejected. -/
def sampleUrlParse (s : String) : Except String URL :=
  if s = "http://10.0.0.2:1400/xml/device_description.xml" then
    .ok ⟨"http", "", "", "10.0.0.2:1400", "/xml/device_description.xml", "", "", ""⟩
  else if s = "http://10.0.0.3:1400/xml/device_description.xml" then
    .ok ⟨"http", "", "", "10.0.0.3:1400", "/xml/device_description.xml", "", "", ""⟩
  else if s = "http://10.0.0.2:1400/MediaRenderer/AVTransport/Control" then
    .ok ⟨"http", "", "", "10.0.0.2:1400", "/MediaRenderer/AVTransport/Control", "", "", ""⟩
  else if s = "http://10.0.0.3:1400/MediaRenderer/AVTransport/Control" then
    .ok ⟨"http", "", "", "10.0.0.3:1400", "/MediaRenderer/AVTransport/Control", "", "", ""⟩
  else if s = "http://a/1.mp3" then .ok ⟨"http", "", "", "a", "/1.mp3", "", "", ""⟩
  else if s = "http://a/2.mp3" then .ok ⟨"http", "", "", "a", "/2.mp3", "", "", ""⟩
  else if s = "http://a/3.mp3" then .ok ⟨"http", "", "", "a", "/3.mp3", "", "", ""⟩
  else .error "invalid URL"

/-- A sample `URL.String` for URLs with a scheme, a host and a path. -/
def sampleUrlString (u : URL) : String :=
  u.Scheme ++ "://" ++ u.Host ++ u.Path

/-- A sample `xml` decoder: two descriptors naming a room, everything else
fails to decode. -/
def sampleXmlDecode (body : String) : device × Option String :=
  if body = "<root><device><roomName>Living Room</roomName></device></root>" then
    (⟨"Living Room"⟩, none)
  else if body = "<root><device><roomName>Kitchen</roomName></device></root>" then
    (⟨"Kitchen"⟩, none)
  else (⟨""⟩, some "EOF")

/-- The sample world: the given reads, every descriptor names the living room,
and the control call number `n` is answered with `status n`. -/
def sampleWorld (reads : List ReadResult) (status : Nat → Int) : World where
  listenUDP := none
  resolveUDPAddr := fun _ => none
  writeTo := fun _ _ => none
  reads := reads
  readResponse := sampleReadResponse
  urlParse := sampleUrlParse
  urlString := sampleUrlString
  httpGet := fun _ _ => .ok "<root><device><roomName>Living Room</roomName></device></root>"
  xmlDecode := sampleXmlDecode
  httpDo := fun n _ => .ok (status n)

/-- The datagram of the player at 10.0.0.2. -/
def answer2 : String :=
  "HTTP/1.1 200 OK\r\nLOCATION: http://10.0.0.2:1400/xml/device_description.xml\r\nST: urn:schemas-upnp-org:device:ZonePlayer:1\r\n\r\n"

/-- The datagram of the player at 10.0.0.3. -/
def answer3 : String :=
  "HTTP/1.1 200 OK\r\nLOCATION: http://10.0.0.3:1400/xml/device_description.xml\r\nST: urn:schemas-upnp-org:device:ZonePlayer:1\r\n\r\n"

/-- The datagram of a zone player whose location has a port that is no number,
which `url.Parse` rejects. -/
def answerBad : String :=
  "HTTP/1.1 200 OK\r\nLOCATION: http://10.0.0.4:xyz/desc.xml\r\nST: urn:schemas-upnp-org:device:ZonePlayer:1\r\n\r\n"

/-- The datagram of a device that is not a zone player. -/
def answerRoot : String :=
  "HTTP/1.1 200 OK\r\nLOCATION: http://10.0.0.9:80/desc.xml\r\nST: upnp:rootdevice\r\n\r\n"

/-! ## Statement vocabulary -/

/-- The reads that end the receive loop: none left (the deadline), a timeout,
or another read error. -/
def endsReceiving : List ReadResult → Bool
  | .data _ :: _ => false
  | _ => true

/-- The discovery datagram with every line, the last included, followed by CRLF. -/
def terminatedRequest (query : String) : String :=
  String.join
    (["M-SEARCH * HTTP/1.1", "HOST: 239.255.255.250:1900", "MAN: \"ssdp:discover\"",
      "ST: " ++ query, "MX: 1"].map (fun line => line ++ "\r\n"))

/-- Whether the candidate's "Location" value parses as a URL. -/
def parsable (w : World) (f : Header) : Bool :=
  match w.urlParse (f.Get "Location") with
  | .ok _ => true
  | .error _ => false

/-- The number of descriptor fetches a run of candidates causes: one for each
candidate with a parsable location. -/
def fetches (w : World) (cands : List Header) : Nat :=
  (cands.filter (parsable w)).length

/-- The endpoint of a candidate that has a parsable location whose descriptor
fetch and decode succeed with a room name equal to the target, when its fetch
is the one made after `n` earlier fetches; `none` for every other candidate. -/
def candidateMatch (w : World) (target : String) (n : Nat) (f : Header) : Option URL :=
  match w.urlParse (f.Get "Location") with
  | .error _ => none
  | .ok u =>
    match w.httpGet n (w.urlString u) with
    | .error _ => none
    | .ok body =>
      match w.xmlDecode body with
      | (_, some _) => none
      | (d, none) => if d.RoomName = target then some u else none

/-- The URL text of a candidate's location when it parses. -/
def locationURL (w : World) (f : Header) : Option String :=
  match w.urlParse (f.Get "Location") with
  | .ok u => some (w.urlString u)
  | .error _ => none

/-- The positional arguments the enqueue loop does not skip: those that parse
as a URL. -/
def accepted (w : World) (args : List String) : List String :=
  args.filter (fun item =>
    match w.urlParse item with
    | .ok _ => true
    | .error _ => false)

/-- The number of control calls made before the first enqueue: the clear call
unless append mode is set. -/
def callsBeforeEnqueue (fl : Flags) : Nat :=
  if fl.append then 0 else 1

/-- The world as it is after `k` control calls: its next control call is
answered as call number `k` of the original world. -/
def World.afterDo (w : World) (k : Nat) : World :=
  { w with httpDo := fun n req => w.httpDo (n + k) req }

/-- The entities of the replacement table without their leading ampersand. -/
def entityTails : List (List Char) :=
  ["amp;".data, "#39;".data, "lt;".data, "gt;".data, "#34;".data]

/-! ## Theorems: discovery -/

theorem appendIfMatch_eq (query : String) (hdr : Header) (vals : List String)
    (devices : List Header) :
    appendIfMatch query hdr vals devices
      = if query ∈ vals then devices ++ [hdr] else devices := by
  induction vals with
  | nil => simp [appendIfMatch]
  | cons v vs ih =>
    by_cases hv : v = query
    · simp [appendIfMatch, hv]
    · have hq : ¬ query = v := fun h => hv h.symm
      simp [appendIfMatch, hv, hq, ih]

theorem searchLoop_parsed (w : World) (query : String) (R : List (String × Response))
    (hR : ∀ p ∈ R, w.readResponse p.1 = .ok p.2) (stop : List ReadResult)
    (hstop : endsReceiving stop = true) (devices : List Header) (log : List String) :
    (searchLoop w query (R.map (fun p => ReadResult.data p.1) ++ stop) devices log).1
      = .returned (devices ++
          (R.map (fun p => p.2.Header)).filter (fun h => decide (query ∈ h.values "St"))) := by
  induction R generalizing devices with
  | nil =>
    cases stop with
    | nil => simp [searchLoop]
    | cons r rest =>
      cases r with
      | data buf => simp [endsReceiving] at hstop
      | timeout => simp [searchLoop]
      | failure msg => simp [searchLoop]
  | cons p R ih =>
    have hp : w.readResponse p.1 = .ok p.2 := hR p (by simp)
    have hR2 : ∀ q ∈ R, w.readResponse q.1 = .ok q.2 := fun q hq => hR q (by simp [hq])
    simp only [List.map_cons, List.cons_append, searchLoop, hp]
    refine (ih hR2 _).trans ?_
    rw [appendIfMatch_eq]
    by_cases hm : query ∈ p.2.Header.values "St"
    · simp [hm, List.filter_cons]
    · simp [hm, List.filter_cons]

/-- C1: when the socket is set up and the datagrams received before the loop
ends all parse, `Search` returns exactly the parsed headers that carry the
query among their "St" values, in arrival order, each once, duplicates kept. -/
theorem Search_returns_matching_subsequence (w : World) (T : String)
    (R : List (String × Response)) (stop : List ReadResult)
    (hlisten : w.listenUDP = none)
    (hresolve : w.resolveUDPAddr "239.255.255.250:1900" = none)
    (hwrite : w.writeTo (searchRequest T) "239.255.255.250:1900" = none)
    (hreads : w.reads = R.map (fun p => ReadResult.data p.1) ++ stop)
    (hstop : endsReceiving stop = true)
    (hR : ∀ p ∈ R, w.readResponse p.1 = .ok p.2) :
    (Search w T).1
      = .returned ((R.map (fun p => p.2.Header)).filter
          (fun h => decide (T ∈ h.values "St"))) := by
  simp only [Search, hlisten, hresolve, hwrite, hreads]
  rw [searchLoop_parsed w T R hR stop hstop]
  simp

/-- C1 at a concrete input: two answers of the same zone player around the
answer of another device; both zone-player answers are returned, and the
datagram that arrives after the timeout is not read. -/
theorem Search_returns_matching_subsequence_witness :
    (Search (sampleWorld [.data answer2, .data answerRoot, .data answer2, .timeout,
        .data answer3] (fun _ => 200)) zonePlayer).1
      = .returned [answerHeader "http://10.0.0.2:1400/xml/device_description.xml",
          answerHeader "http://10.0.0.2:1400/xml/device_description.xml"] :=
  (Search_returns_matching_subsequence
    (sampleWorld [.data answer2, .data answerRoot, .data answer2, .timeout, .data answer3]
      (fun _ => 200)) zonePlayer
    [(answer2, ⟨answerHeader "http://10.0.0.2:1400/xml/device_description.xml"⟩),
     (answerRoot, ⟨[("Location", ["http://10.0.0.9:80/desc.xml"]), ("St", ["upnp:rootdevice"])]⟩),
     (answer2, ⟨answerHeader "http://10.0.0.2:1400/xml/device_description.xml"⟩)]
    [.timeout, .data answer3] rfl rfl rfl (by decide) rfl
    (by
      intro p hp
      simp only [List.mem_cons, List.mem_singleton, List.not_mem_nil, or_false] at hp
      rcases hp with rfl | rfl | rfl <;> rfl)).trans (by decide)

theorem searchLoop_malformed (w : World) (query : String) (buf e : String)
    (rest : List ReadResult) (devices : List Header) (log : List String)
    (hbad : w.readResponse buf = .error e) :
    searchLoop w query (.data buf :: rest) devices log
      = (.panicked, log ++ [Sprintf "ReadResponse error: %s" [.str e]]) := by
  simp [searchLoop, hbad]

/-- C3: a datagram that is no HTTP response, received before a matching
answer: `Search` logs the parse error and then panics on the nil response, so
the process dies; on the same reads without the malformed datagram it returns
the matching answer. -/
theorem Search_malformed_datagram_panics :
    Search (sampleWorld [.data "garbage", .data answer3] (fun _ => 200)) zonePlayer
        = (.panicked, ["ReadResponse error: malformed HTTP response \"garbage\""])
      ∧ (main (sampleWorld [.data "garbage", .data answer3] (fun _ => 200))
          ⟨"Living Room", true, []⟩).1 = .panic
      ∧ Search (sampleWorld [.data answer3] (fun _ => 200)) zonePlayer
        = (.returned [answerHeader "http://10.0.0.3:1400/xml/device_description.xml"], []) := by
  decide

theorem searchRequest_eq (T : String) :
    searchRequest T
      = "M-SEARCH * HTTP/1.1\r\nHOST: 239.255.255.250:1900\r\nMAN: \"ssdp:discover\"\r\nST: "
          ++ T ++ "\r\nMX: 1" := by
  apply String.ext
  simp [searchRequest, String.intercalate, String.intercalate.go]

/-- C10 as stated fails for the query `main` sends: the datagram is not the
five lines each followed by CRLF, and its last character is the `1` of "MX: 1". -/
theorem searchRequest_last_line_unterminated :
    searchRequest zonePlayer ≠ terminatedRequest zonePlayer
      ∧ (searchRequest zonePlayer).data.getLast? = some '1' := by
  decide

/-- C10 amended: for every query the datagram is the five lines in order, each
of the first four followed by CRLF and the last, "MX: 1", followed by nothing;
it is one CRLF short of the fully terminated block. -/
theorem searchRequest_lines_joined_by_crlf (T : String) :
    searchRequest T
        = "M-SEARCH * HTTP/1.1\r\n" ++ "HOST: 239.255.255.250:1900\r\n"
            ++ "MAN: \"ssdp:discover\"\r\n" ++ ("ST: " ++ T ++ "\r\n") ++ "MX: 1"
      ∧ terminatedRequest T = searchRequest T ++ "\r\n" := by
  constructor
  · rw [searchRequest_eq]
    apply String.ext
    simp
  · rw [searchRequest_eq]
    apply String.ext
    simp [terminatedRequest, String.join]

/-! ## Theorems: the run without candidates -/

/-- C9: when the device flag is set and `Search` returns no candidate, the run
ends with the fatal message "No Sonos devices found"; nothing was fetched, no
control command was invoked and no request was posted. -/
theorem main_no_devices_found (w : World) (fl : Flags) (lg : List String)
    (hdev : fl.device ≠ "")
    (hsearch : Search w "urn:schemas-upnp-org:device:ZonePlayer:1" = (.returned [], lg)) :
    main w fl = (.fatal "No Sonos devices found", ⟨lg, [], [], []⟩) := by
  simp [main, hdev, hsearch]

/-- C9 at a concrete input: no datagram arrives before the deadline. -/
theorem main_no_devices_found_witness :
    main (sampleWorld [] (fun _ => 200)) ⟨"Living Room", false, ["http://a/1.mp3"]⟩
      = (.fatal "No Sonos devices found", ⟨[], [], [], []⟩) :=
  main_no_devices_found (sampleWorld [] (fun _ => 200))
    ⟨"Living Room", false, ["http://a/1.mp3"]⟩ [] (by decide) (by decide)

/-! ## Theorems: formatting and escaping -/

theorem sprintfAux_append (pre rest : List Char) (args : List Arg) (h : '%' ∉ pre) :
    sprintfAux false (pre ++ rest) args = pre ++ sprintfAux false rest args := by
  induction pre with
  | nil => rfl
  | cons c cs ih =>
    have hc : ¬ c = '%' := fun hc => h (by simp [hc])
    have hcs : '%' ∉ cs := fun hcs => h (by simp [hcs])
    simp [sprintfAux, hc, ih hcs]

theorem sprintfAux_plain (l : List Char) (args : List Arg) (h : '%' ∉ l) :
    sprintfAux false l args = l := by
  have := sprintfAux_append l [] args h
  simpa [sprintfAux] using this

theorem sprintfAux_verb_s (rest : List Char) (s : String) (args : List Arg) :
    sprintfAux false ('%' :: 's' :: rest) (.str s :: args)
      = s.data ++ sprintfAux false rest args := by
  simp [sprintfAux, formatArg]

theorem Sprintf_path_status (path : String) (status : Int) :
    Sprintf "%s: %d" [.str path, .int status] = path ++ ": " ++ toString status := by
  apply String.ext
  simp [Sprintf, sprintfAux, formatArg]

theorem Sprintf_enqueueing (item e : String) :
    Sprintf "Enqueueing %s: %s" [.str item, .str e] = "Enqueueing " ++ item ++ ": " ++ e := by
  apply String.ext
  simp [Sprintf, sprintfAux, formatArg]

theorem Sprintf_clearing (name e : String) :
    Sprintf "Clearing queue: %s: %s" [.str name, .str e]
      = "Clearing queue: " ++ name ++ ": " ++ e := by
  apply String.ext
  simp [Sprintf, sprintfAux, formatArg]

theorem Sprintf_not_found (name : String) :
    Sprintf "Device not found: %s" [.str name] = "Device not found: " ++ name := by
  apply String.ext
  simp [Sprintf, sprintfAux, formatArg]

theorem escapeChar_cases (c : Char) :
    (c = '&' ∧ escapeChar c = "&amp;".data) ∨ (c = '\x27' ∧ escapeChar c = "&#39;".data)
      ∨ (c = '<' ∧ escapeChar c = "&lt;".data) ∨ (c = '>' ∧ escapeChar c = "&gt;".data)
      ∨ (c = '"' ∧ escapeChar c = "&#34;".data)
      ∨ ((c ≠ '&' ∧ c ≠ '\x27' ∧ c ≠ '<' ∧ c ≠ '>' ∧ c ≠ '"') ∧ escapeChar c = [c]) := by
  by_cases h1 : c = '&'
  · subst h1; exact Or.inl ⟨rfl, by decide⟩
  by_cases h2 : c = '\x27'
  · subst h2; exact Or.inr (Or.inl ⟨rfl, by decide⟩)
  by_cases h3 : c = '<'
  · subst h3; exact Or.inr (Or.inr (Or.inl ⟨rfl, by decide⟩))
  by_cases h4 : c = '>'
  · subst h4; exact Or.inr (Or.inr (Or.inr (Or.inl ⟨rfl, by decide⟩)))
  by_cases h5 : c = '"'
  · subst h5; exact Or.inr (Or.inr (Or.inr (Or.inr (Or.inl ⟨rfl, by decide⟩))))
  refine Or.inr (Or.inr (Or.inr (Or.inr (Or.inr ⟨⟨h1, h2, h3, h4, h5⟩, ?_⟩))))
  have e1 : (c == '&') = false := by simp [h1]
  have e2 : (c == '\x27') = false := by simp [h2]
  have e3 : (c == '<') = false := by simp [h3]
  have e4 : (c == '>') = false := by simp [h4]
  have e5 : (c == '"') = false := by simp [h5]
  simp [escapeChar, htmlEscaper, List.lookup, e1, e2, e3, e4, e5]

theorem escapeChars_eq_bind (l : List Char) :
    escapeChars l = l.flatMap (fun c =>
      if c = '&' then "&amp;".data else if c = '<' then "&lt;".data
      else if c = '>' then "&gt;".data else if c = '"' then "&#34;".data
      else if c = '\x27' then "&#39;".data else [c]) := by
  induction l with
  | nil => rfl
  | cons c cs ih =>
    rw [escapeChars, ih, List.flatMap_cons]
    congr 1
    rcases escapeChar_cases c with h | h | h | h | h | h
    · rw [h.2, h.1]; decide
    · rw [h.2, h.1]; decide
    · rw [h.2, h.1]; decide
    · rw [h.2, h.1]; decide
    · rw [h.2, h.1]; decide
    · rw [h.2]; simp [h.1.1, h.1.2.1, h.1.2.2.1, h.1.2.2.2.1, h.1.2.2.2.2]

theorem escapeChars_no_markup (l : List Char) :
    ∀ c ∈ escapeChars l, c ≠ '<' ∧ c ≠ '>' ∧ c ≠ '"' ∧ c ≠ '\x27' := by
  induction l with
  | nil => simp [escapeChars]
  | cons d ds ih =>
    intro c hc
    rw [escapeChars, List.mem_append] at hc
    rcases hc with hc | hc
    · rcases escapeChar_cases d with h | h | h | h | h | h
      · rw [h.2] at hc; revert c; decide
      · rw [h.2] at hc; revert c; decide
      · rw [h.2] at hc; revert c; decide
      · rw [h.2] at hc; revert c; decide
      · rw [h.2] at hc; revert c; decide
      · rw [h.2, List.mem_singleton] at hc
        subst hc
        exact ⟨h.1.2.2.1, h.1.2.2.2.1, h.1.2.2.2.2, h.1.2.1⟩
    · exact ih c hc

theorem amp_split (t pre post : List Char) (ht : '&' ∉ t)
    (h : pre ++ '&' :: post = '&' :: t) : pre = [] ∧ post = t := by
  cases pre with
  | nil => simpa using h
  | cons x xs =>
    exfalso
    apply ht
    have h2 : xs ++ '&' :: post = t := by simpa using (List.cons.inj h).2
    rw [← h2]
    simp

theorem escapeChars_amp (l pre post : List Char)
    (h : escapeChars l = pre ++ '&' :: post) :
    ∃ t ∈ entityTails, ∃ rest, post = t ++ rest := by
  induction l generalizing pre with
  | nil => simp [escapeChars] at h
  | cons d ds ih =>
    rw [escapeChars, List.append_eq_append_iff] at h
    rcases h with ⟨a, h1, h2⟩ | ⟨b, h1, h2⟩
    · exact ih a h2
    · cases b with
      | nil => exact ih [] (by simpa using h2.symm)
      | cons x xs =>
        have hx : x = '&' := (List.cons.inj h2).1.symm
        have hpost : post = xs ++ escapeChars ds := (List.cons.inj h2).2
        subst hx
        rcases escapeChar_cases d with h | h | h | h | h | h
        · rw [h.2] at h1
          have := amp_split "amp;".data pre xs (by decide) h1.symm
          exact ⟨"amp;".data, by simp [entityTails], escapeChars ds, by rw [hpost, this.2]⟩
        · rw [h.2] at h1
          have := amp_split "#39;".data pre xs (by decide) h1.symm
          exact ⟨"#39;".data, by simp [entityTails], escapeChars ds, by rw [hpost, this.2]⟩
        · rw [h.2] at h1
          have := amp_split "lt;".data pre xs (by decide) h1.symm
          exact ⟨"lt;".data, by simp [entityTails], escapeChars ds, by rw [hpost, this.2]⟩
        · rw [h.2] at h1
          have := amp_split "gt;".data pre xs (by decide) h1.symm
          exact ⟨"gt;".data, by simp [entityTails], escapeChars ds, by rw [hpost, this.2]⟩
        · rw [h.2] at h1
          have := amp_split "#34;".data pre xs (by decide) h1.symm
          exact ⟨"#34;".data, by simp [entityTails], escapeChars ds, by rw [hpost, this.2]⟩
        · exfalso
          rw [h.2] at h1
          have hm : '&' ∈ [d] := by rw [h1]; simp
          exact h.1.1 (List.mem_singleton.mp hm).symm

/-! ## Theorems: the control commands -/

set_option maxRecDepth 100000 in
theorem addURIBody_eq (item : String) :
    addURIBody item
      = "<?xml version=\"1.0\"?><s:Envelope xmlns:s=\"http://schemas.xmlsoap.org/soap/envelope/\" s:encodingStyle=\"http://schemas.xmlsoap.org/soap/encoding/\"><s:Body><u:AddURIToQueue xmlns:u=\"urn:schemas-upnp-org:service:AVTransport:1\"><InstanceID>0</InstanceID><EnqueuedURI>"
        ++ EscapeString item
        ++ "</EnqueuedURI><EnqueuedURIMetaData></EnqueuedURIMetaData><DesiredFirstTrackNumberEnqueued>0</DesiredFirstTrackNumberEnqueued><EnqueueAsNext>0</EnqueueAsNext></u:AddURIToQueue></s:Body></s:Envelope>" := by
  apply String.ext
  have hfmt : bodyFmt.data
      = ("<?xml version=\"1.0\"?><s:Envelope xmlns:s=\"http://schemas.xmlsoap.org/soap/envelope/\" s:encodingStyle=\"http://schemas.xmlsoap.org/soap/encoding/\"><s:Body><u:AddURIToQueue xmlns:u=\"urn:schemas-upnp-org:service:AVTransport:1\"><InstanceID>0</InstanceID><EnqueuedURI>").data
        ++ ('%' :: 's' :: ("</EnqueuedURI><EnqueuedURIMetaData></EnqueuedURIMetaData><DesiredFirstTrackNumberEnqueued>0</DesiredFirstTrackNumberEnqueued><EnqueueAsNext>0</EnqueueAsNext></u:AddURIToQueue></s:Body></s:Envelope>").data) := by
    decide
  have hhead : '%' ∉ ("<?xml version=\"1.0\"?><s:Envelope xmlns:s=\"http://schemas.xmlsoap.org/soap/envelope/\" s:encodingStyle=\"http://schemas.xmlsoap.org/soap/encoding/\"><s:Body><u:AddURIToQueue xmlns:u=\"urn:schemas-upnp-org:service:AVTransport:1\"><InstanceID>0</InstanceID><EnqueuedURI>").data := by
    decide
  have htail : '%' ∉ ("</EnqueuedURI><EnqueuedURIMetaData></EnqueuedURIMetaData><DesiredFirstTrackNumberEnqueued>0</DesiredFirstTrackNumberEnqueued><EnqueueAsNext>0</EnqueueAsNext></u:AddURIToQueue></s:Body></s:Envelope>").data := by
    decide
  show sprintfAux false bodyFmt.data [Arg.str (EscapeString item)] = _
  rw [hfmt, sprintfAux_append _ _ _ hhead, sprintfAux_verb_s, sprintfAux_plain _ _ htail]
  simp only [String.data_append, List.append_assoc]

theorem addURIToQueue_posts (w : World) (n : Nat) (base : URL) (item : String) :
    ∀ req ∈ (addURIToQueue w n base item).2,
      req.Method = "POST" ∧ req.URL = w.urlString { base with Path := controlPath }
        ∧ req.Body = addURIBody item := by
  intro req hreq
  unfold addURIToQueue NewRequest at hreq
  cases hp : w.urlParse (w.urlString { base with Path := controlPath }) with
  | error e => simp [hp] at hreq
  | ok v =>
    simp only [hp] at hreq
    split at hreq
    · rw [List.mem_singleton] at hreq
      subst hreq
      exact ⟨rfl, rfl, rfl⟩
    · split at hreq
      · rw [List.mem_singleton] at hreq
        subst hreq
        exact ⟨rfl, rfl, rfl⟩
      · rw [List.mem_singleton] at hreq
        subst hreq
        exact ⟨rfl, rfl, rfl⟩

theorem addURIToQueue_posts_one (w : World) (n : Nat) (base : URL) (item : String) (u : URL)
    (hbuilt : w.urlParse (w.urlString { base with Path := controlPath }) = .ok u) :
    ∃ req, (addURIToQueue w n base item).2 = [req] := by
  unfold addURIToQueue NewRequest
  simp only [hbuilt]
  split
  · exact ⟨_, rfl⟩
  · split
    · exact ⟨_, rfl⟩
    · exact ⟨_, rfl⟩

theorem enqueueAll_posts (w : World) (base : URL) (args : List String) :
    ∀ n, ∀ req ∈ (enqueueAll w base n args).2.posts,
      ∃ item ∈ args, req.Body = addURIBody item := by
  induction args with
  | nil => intro n req hreq; simp [enqueueAll, Effects.none] at hreq
  | cons item rest ih =>
    intro n req hreq
    rw [enqueueAll] at hreq
    cases hp : w.urlParse item with
    | error e =>
      rw [hp] at hreq
      simp only [Effects.append, List.nil_append] at hreq
      obtain ⟨it, hit, hb⟩ := ih n req hreq
      exact ⟨it, List.mem_cons_of_mem _ hit, hb⟩
    | ok v =>
      rw [hp] at hreq
      have hone := addURIToQueue_posts w n base item
      rcases ha : addURIToQueue w n base item with ⟨_ | e, reqs⟩
      · rw [ha] at hreq hone
        simp only [Effects.append, List.mem_append] at hreq
        rcases hreq with hreq | hreq
        · exact ⟨item, List.mem_cons_self _ _, (hone req hreq).2.2⟩
        · obtain ⟨it, hit, hb⟩ := ih _ req hreq
          exact ⟨it, List.mem_cons_of_mem _ hit, hb⟩
      · rw [ha] at hreq hone
        exact ⟨item, List.mem_cons_self _ _, (hone req hreq).2.2⟩

/-- C8: every request `addURIToQueue` hands to the client, and so every request
the enqueue loop of `main` posts, carries as its body the text built for the
item; once the control URL is accepted exactly one such request is posted.
That body is a fixed opening (InstanceID 0, then the opened EnqueuedURI
element), the escaped item, and a fixed closing (the empty EnqueuedURIMetaData
element, DesiredFirstTrackNumberEnqueued 0, EnqueueAsNext 0).  The escaped
item is the item with each of the five special characters replaced by its
entity; it holds none of the characters that open or close markup or a quoted
value, and each ampersand in it starts an entity. -/
theorem addURIToQueue_posts_escaped_item (w : World) (n : Nat) (base : URL) (item : String) :
    (∀ req ∈ (addURIToQueue w n base item).2,
        req.Method = "POST" ∧ req.Body
          = "<?xml version=\"1.0\"?><s:Envelope xmlns:s=\"http://schemas.xmlsoap.org/soap/envelope/\" s:encodingStyle=\"http://schemas.xmlsoap.org/soap/encoding/\"><s:Body><u:AddURIToQueue xmlns:u=\"urn:schemas-upnp-org:service:AVTransport:1\"><InstanceID>0</InstanceID><EnqueuedURI>"
            ++ EscapeString item
            ++ "</EnqueuedURI><EnqueuedURIMetaData></EnqueuedURIMetaData><DesiredFirstTrackNumberEnqueued>0</DesiredFirstTrackNumberEnqueued><EnqueueAsNext>0</EnqueueAsNext></u:AddURIToQueue></s:Body></s:Envelope>")
      ∧ (∀ u, w.urlParse (w.urlString { base with Path := controlPath }) = .ok u →
          ∃ req, (addURIToQueue w n base item).2 = [req])
      ∧ (∀ args m, ∀ req ∈ (enqueueAll w base m args).2.posts,
          ∃ it ∈ args, req.Body
            = "<?xml version=\"1.0\"?><s:Envelope xmlns:s=\"http://schemas.xmlsoap.org/soap/envelope/\" s:encodingStyle=\"http://schemas.xmlsoap.org/soap/encoding/\"><s:Body><u:AddURIToQueue xmlns:u=\"urn:schemas-upnp-org:service:AVTransport:1\"><InstanceID>0</InstanceID><EnqueuedURI>"
              ++ EscapeString it
              ++ "</EnqueuedURI><EnqueuedURIMetaData></EnqueuedURIMetaData><DesiredFirstTrackNumberEnqueued>0</DesiredFirstTrackNumberEnqueued><EnqueueAsNext>0</EnqueueAsNext></u:AddURIToQueue></s:Body></s:Envelope>")
      ∧ (EscapeString item).data = item.data.flatMap (fun c =>
          if c = '&' then "&amp;".data else if c = '<' then "&lt;".data
          else if c = '>' then "&gt;".data else if c = '"' then "&#34;".data
          else if c = '\x27' then "&#39;".data else [c])
      ∧ (∀ c ∈ (EscapeString item).data, c ≠ '<' ∧ c ≠ '>' ∧ c ≠ '"' ∧ c ≠ '\x27')
      ∧ (∀ pre post, (EscapeString item).data = pre ++ '&' :: post →
          ∃ t ∈ ["amp;".data, "#39;".data, "lt;".data, "gt;".data, "#34;".data],
            ∃ rest, post = t ++ rest) := by
  refine ⟨fun req hreq => ?_, fun u hu => addURIToQueue_posts_one w n base item u hu,
    fun args m req hreq => ?_, escapeChars_eq_bind item.data, escapeChars_no_markup item.data,
    fun pre post h => escapeChars_amp item.data pre post h⟩
  · have h := addURIToQueue_posts w n base item req hreq
    exact ⟨h.1, h.2.2.trans (addURIBody_eq item)⟩
  · obtain ⟨it, hit, hb⟩ := enqueueAll_posts w base args m req hreq
    exact ⟨it, hit, hb.trans (addURIBody_eq it)⟩

set_option maxRecDepth 100000 in
/-- C8 at a concrete input: an item that tries to close the EnqueuedURI element
and open one of its own; the one request posted carries the item with its
markup characters replaced by entities. -/
theorem addURIToQueue_posts_escaped_item_witness :
    (addURIToQueue (sampleWorld [] (fun _ => 200)) 0
        ⟨"http", "", "", "10.0.0.3:1400", "/xml/device_description.xml", "", "", ""⟩
        "</EnqueuedURI><x a=\"b\">&\x27").2.map Request.Body
      = ["<?xml version=\"1.0\"?><s:Envelope xmlns:s=\"http://schemas.xmlsoap.org/soap/envelope/\" s:encodingStyle=\"http://schemas.xmlsoap.org/soap/encoding/\"><s:Body><u:AddURIToQueue xmlns:u=\"urn:schemas-upnp-org:service:AVTransport:1\"><InstanceID>0</InstanceID><EnqueuedURI>"
          ++ "&lt;/EnqueuedURI&gt;&lt;x a=&#34;b&#34;&gt;&amp;&#39;"
          ++ "</EnqueuedURI><EnqueuedURIMetaData></EnqueuedURIMetaData><DesiredFirstTrackNumberEnqueued>0</DesiredFirstTrackNumberEnqueued><EnqueueAsNext>0</EnqueueAsNext></u:AddURIToQueue></s:Body></s:Envelope>"] :=
  have h := (addURIToQueue_posts_escaped_item (sampleWorld [] (fun _ => 200)) 0
    ⟨"http", "", "", "10.0.0.3:1400", "/xml/device_description.xml", "", "", ""⟩
    "</EnqueuedURI><x a=\"b\">&\x27").2.1
    ⟨"http", "", "", "10.0.0.3:1400", "/MediaRenderer/AVTransport/Control", "", "", ""⟩ rfl
  h.elim (fun _ _ => by decide)

/-- C7: when the request is built and the exchange completes with status `s`,
each of the two control commands returns nil exactly when `s` is 200, and for
any other `s` returns the error text made of the control path and `s`. -/
theorem control_command_succeeds_iff_200 (w : World) (n : Nat) (base : URL) (item : String)
    (s : Int) (u : URL)
    (hbuilt : w.urlParse (w.urlString { base with Path := controlPath }) = .ok u)
    (hdone : ∀ req, w.httpDo n req = .ok s) :
    ((removeAllTracksFromQueue w n base).1 = none ↔ s = 200)
      ∧ (s ≠ 200 → (removeAllTracksFromQueue w n base).1
          = some ("/MediaRenderer/AVTransport/Control: " ++ toString s))
      ∧ ((addURIToQueue w n base item).1 = none ↔ s = 200)
      ∧ (s ≠ 200 → (addURIToQueue w n base item).1
          = some ("/MediaRenderer/AVTransport/Control: " ++ toString s)) := by
  have hfmt : Sprintf "%s: %d" [.str controlPath, .int s]
      = "/MediaRenderer/AVTransport/Control: " ++ toString s := by
    rw [Sprintf_path_status]
    apply String.ext
    simp [controlPath]
  by_cases hs : s = 200
  · simp [removeAllTracksFromQueue, addURIToQueue, NewRequest, hbuilt, hdone, hs]
  · simp [removeAllTracksFromQueue, addURIToQueue, NewRequest, hbuilt, hdone, hs, hfmt]

/-- C7 at a concrete input: the player answers the control call with 500. -/
theorem control_command_succeeds_iff_200_witness :
    (removeAllTracksFromQueue (sampleWorld [] (fun _ => 500)) 0
        ⟨"http", "", "", "10.0.0.2:1400", "/xml/device_description.xml", "", "", ""⟩).1
        = some "/MediaRenderer/AVTransport/Control: 500"
      ∧ (addURIToQueue (sampleWorld [] (fun _ => 500)) 0
        ⟨"http", "", "", "10.0.0.2:1400", "/xml/device_description.xml", "", "", ""⟩
        "http://a/1.mp3").1 = some "/MediaRenderer/AVTransport/Control: 500" :=
  have h := control_command_succeeds_iff_200 (sampleWorld [] (fun _ => 500)) 0
    ⟨"http", "", "", "10.0.0.2:1400", "/xml/device_description.xml", "", "", ""⟩
    "http://a/1.mp3" 500
    ⟨"http", "", "", "10.0.0.2:1400", "/MediaRenderer/AVTransport/Control", "", "", ""⟩
    rfl (fun _ => rfl)
  ⟨h.2.1 (by decide), h.2.2.2 (by decide)⟩

/-! ## Theorems: device resolution -/

theorem fetches_cons (w : World) (f : Header) (fs : List Header) :
    fetches w (f :: fs) = (if parsable w f then 1 else 0) + fetches w fs := by
  by_cases h : parsable w f = true
  · simp [fetches, List.filter_cons, h, Nat.add_comm]
  · simp [fetches, List.filter_cons, h]

theorem fetches_append (w : World) (xs ys : List Header) :
    fetches w (xs ++ ys) = fetches w xs + fetches w ys := by
  simp [fetches, List.filter_append]

theorem resolve_cons_fst (w : World) (t : String) (n : Nat) (cur : Option URL)
    (f : Header) (fs : List Header) :
    (resolve w t n cur (f :: fs)).1
      = (resolve w t (n + (if parsable w f then 1 else 0))
          (match candidateMatch w t n f with
            | some u => some u
            | none => cur) fs).1 := by
  unfold candidateMatch parsable
  rw [resolve]
  cases hp : w.urlParse (f.Get "Location") with
  | error e => simp
  | ok u =>
    simp only [fetchDevice]
    cases hg : w.httpGet n (w.urlString u) with
    | error e => simp
    | ok body =>
      rcases hd : w.xmlDecode body with ⟨d, _ | e⟩
      · by_cases hr : d.RoomName = t
        · simp [hd, hr]
        · simp [hd, hr]
      · simp [hd]

theorem resolve_no_match (w : World) (t : String) (ys : List Header) :
    ∀ (n : Nat) (cur : Option URL),
      (∀ a g b, ys = a ++ g :: b → candidateMatch w t (n + fetches w a) g = none) →
      (resolve w t n cur ys).1 = cur := by
  induction ys with
  | nil => intro n cur _; rfl
  | cons f fs ih =>
    intro n cur h
    have h0 : candidateMatch w t n f = none := by
      have := h [] f fs rfl
      simpa [fetches] using this
    rw [resolve_cons_fst, h0]
    apply ih
    intro a g b hab
    have := h (f :: a) g b (by rw [hab]; rfl)
    rw [fetches_cons, ← Nat.add_assoc] at this
    exact this

theorem resolve_last_match (w : World) (t : String) (f : Header) (post : List Header)
    (u : URL) (pre : List Header) :
    ∀ (n : Nat) (cur : Option URL),
      candidateMatch w t (n + fetches w pre) f = some u →
      (∀ a g b, post = a ++ g :: b →
        candidateMatch w t (n + fetches w (pre ++ f :: a)) g = none) →
      (resolve w t n cur (pre ++ f :: post)).1 = some u := by
  induction pre with
  | nil =>
    intro n cur hm hlast
    have hm0 : candidateMatch w t n f = some u := by simpa [fetches] using hm
    rw [List.nil_append, resolve_cons_fst, hm0]
    apply resolve_no_match
    intro a g b hab
    have := hlast a g b hab
    rw [List.nil_append, fetches_cons, ← Nat.add_assoc] at this
    exact this
  | cons p ps ih =>
    intro n cur hm hlast
    rw [List.cons_append, resolve_cons_fst]
    apply ih
    · rw [fetches_cons, ← Nat.add_assoc] at hm
      exact hm
    · intro a g b hab
      have := hlast a g b hab
      rw [List.cons_append, fetches_cons, ← Nat.add_assoc] at this
      exact this

theorem resolve_keeps_some (w : World) (t : String) (ys : List Header) :
    ∀ (n : Nat) (u : URL), (resolve w t n (some u) ys).1 ≠ none := by
  induction ys with
  | nil => intro n u; simp [resolve]
  | cons f fs ih =>
    intro n u
    rw [resolve_cons_fst]
    cases candidateMatch w t n f with
    | none => exact ih _ u
    | some v => exact ih _ v

theorem resolve_some_match (w : World) (t : String) (g : Header) (b : List Header)
    (u : URL) (a : List Header) :
    ∀ (n : Nat) (cur : Option URL),
      candidateMatch w t (n + fetches w a) g = some u →
      (resolve w t n cur (a ++ g :: b)).1 ≠ none := by
  induction a with
  | nil =>
    intro n cur hm
    have hm0 : candidateMatch w t n g = some u := by simpa [fetches] using hm
    rw [List.nil_append, resolve_cons_fst, hm0]
    exact resolve_keeps_some w t b _ u
  | cons p ps ih =>
    intro n cur hm
    rw [List.cons_append, resolve_cons_fst]
    apply ih
    rw [fetches_cons, ← Nat.add_assoc] at hm
    exact hm

theorem resolve_gets (w : World) (t : String) (fs : List Header) :
    ∀ (n : Nat) (cur : Option URL),
      (resolve w t n cur fs).2.gets = fs.filterMap (locationURL w) := by
  induction fs with
  | nil => intro n cur; rfl
  | cons f fs ih =>
    intro n cur
    rw [resolve]
    unfold locationURL at ih ⊢
    cases hp : w.urlParse (f.Get "Location") with
    | error e => simp [Effects.append, ih, hp]
    | ok u =>
      rcases hf : fetchDevice w n u with ⟨_ | d, lg⟩
      · simp [Effects.append, ih, hp, hf]
      · simp [Effects.append, ih, hp, hf]

/-- C2: a candidate that matches the target, with no matching candidate after
it, is the resolved target of the scan, whatever the candidates before it are;
in particular an earlier candidate that matches as well does not win. -/
theorem resolve_last_match_wins (w : World) (target : String) (pre : List Header)
    (f : Header) (post : List Header) (u : URL)
    (hmatch : candidateMatch w target (fetches w pre) f = some u)
    (hlast : ∀ a g b, post = a ++ g :: b →
      candidateMatch w target (fetches w (pre ++ f :: a)) g = none) :
    (resolve w target 0 none (pre ++ f :: post)).1 = some u := by
  apply resolve_last_match w target f post u pre 0 none
  · simpa using hmatch
  · intro a g b hab
    simpa using hlast a g b hab

/-- C2 at a concrete input: two candidates whose descriptors both name the
living room; the first matches, and the second is the resolved target. -/
theorem resolve_last_match_wins_witness :
    candidateMatch (sampleWorld [] (fun _ => 200)) "Living Room" 0
        (answerHeader "http://10.0.0.2:1400/xml/device_description.xml")
        = some ⟨"http", "", "", "10.0.0.2:1400", "/xml/device_description.xml", "", "", ""⟩
      ∧ (resolve (sampleWorld [] (fun _ => 200)) "Living Room" 0 none
          [answerHeader "http://10.0.0.2:1400/xml/device_description.xml",
           answerHeader "http://10.0.0.3:1400/xml/device_description.xml"]).1
        = some ⟨"http", "", "", "10.0.0.3:1400", "/xml/device_description.xml", "", "", ""⟩ :=
  ⟨by decide,
    resolve_last_match_wins (sampleWorld [] (fun _ => 200)) "Living Room"
      [answerHeader "http://10.0.0.2:1400/xml/device_description.xml"]
      (answerHeader "http://10.0.0.3:1400/xml/device_description.xml") []
      ⟨"http", "", "", "10.0.0.3:1400", "/xml/device_description.xml", "", "", ""⟩
      (by decide) (by intro a g b h; cases a <;> simp at h)⟩

/-! ## Theorems: the command phase -/

theorem enqueueAll_gets (w : World) (base : URL) (args : List String) :
    ∀ n, (enqueueAll w base n args).2.gets = [] := by
  induction args with
  | nil => intro n; rfl
  | cons item rest ih =>
    intro n
    rw [enqueueAll]
    cases hp : w.urlParse item with
    | error e => simp [Effects.append, ih]
    | ok v =>
      rcases ha : addURIToQueue w n base item with ⟨_ | e, reqs⟩
      · simp [Effects.append, ih]
      · simp

theorem enqueueAll_exit (w : World) (base : URL) (args : List String) :
    ∀ n, (enqueueAll w base n args).1 = .success
      ∨ ∃ item e, (enqueueAll w base n args).1 = .fatal ("Enqueueing " ++ item ++ ": " ++ e) := by
  induction args with
  | nil => intro n; exact Or.inl rfl
  | cons item rest ih =>
    intro n
    rw [enqueueAll]
    cases hp : w.urlParse item with
    | error e => simpa using ih n
    | ok v =>
      rcases ha : addURIToQueue w n base item with ⟨_ | e, reqs⟩
      · simpa using ih (n + reqs.length)
      · exact Or.inr ⟨item, e, by simp [Sprintf_enqueueing]⟩

theorem enqueueAll_no_clear (w : World) (base : URL) (args : List String) :
    ∀ n, ∀ c ∈ (enqueueAll w base n args).2.cmds, c.1 ≠ Command.clear := by
  induction args with
  | nil => intro n c hc; simp [enqueueAll, Effects.none] at hc
  | cons item rest ih =>
    intro n c hc
    rw [enqueueAll] at hc
    cases hp : w.urlParse item with
    | error e =>
      rw [hp] at hc
      simp only [Effects.append, List.nil_append] at hc
      exact ih n c hc
    | ok v =>
      rw [hp] at hc
      rcases ha : addURIToQueue w n base item with ⟨_ | e, reqs⟩
      · rw [ha] at hc
        simp only [Effects.append, List.singleton_append, List.mem_cons] at hc
        rcases hc with hc | hc
        · rw [hc]; simp
        · exact ih _ c hc
      · rw [ha] at hc
        simp only [List.mem_singleton] at hc
        rw [hc]; simp

theorem addURIToQueue_afterDo (w : World) (k n : Nat) (base : URL) (item : String) :
    addURIToQueue (w.afterDo k) n base item = addURIToQueue w (n + k) base item := rfl

theorem enqueueAll_afterDo (w : World) (k : Nat) (base : URL) (args : List String) :
    ∀ n, enqueueAll (w.afterDo k) base n args = enqueueAll w base (n + k) args := by
  induction args with
  | nil => intro n; rfl
  | cons item rest ih =>
    intro n
    rw [enqueueAll, enqueueAll, addURIToQueue_afterDo]
    have hparse : (w.afterDo k).urlParse item = w.urlParse item := rfl
    rw [hparse]
    cases hp : w.urlParse item with
    | error e => simp [ih]
    | ok v =>
      rcases ha : addURIToQueue w (n + k) base item with ⟨_ | e, reqs⟩
      · simp [ih, Nat.add_right_comm]
      · simp

theorem removeAll_nil_posts (w : World) (base : URL) (reqs : List Request)
    (h : removeAllTracksFromQueue w 0 base = (none, reqs)) : reqs.length = 1 := by
  unfold removeAllTracksFromQueue NewRequest at h
  cases hp : w.urlParse (w.urlString { base with Path := controlPath }) with
  | error e => simp [hp] at h
  | ok v =>
    simp only [hp] at h
    split at h
    · simp at h
    · split at h
      · simp at h
      · have := (Prod.mk.inj h).2
        rw [← this]; rfl

theorem addURIToQueue_status (w : World) (n : Nat) (base : URL) (item : String)
    (status : Nat → Int) (u : URL)
    (hbuilt : w.urlParse (w.urlString { base with Path := controlPath }) = .ok u)
    (hdone : ∀ m req, w.httpDo m req = .ok (status m)) :
    ∃ req, addURIToQueue w n base item
      = (if status n = 200 then none
          else some ("/MediaRenderer/AVTransport/Control: " ++ toString (status n)), [req]) := by
  have hfmt : Sprintf "%s: %d" [.str controlPath, .int (status n)]
      = "/MediaRenderer/AVTransport/Control: " ++ toString (status n) := by
    rw [Sprintf_path_status]
    apply String.ext
    simp [controlPath]
  by_cases hs : status n = 200
  · simp [addURIToQueue, NewRequest, hbuilt, hdone, hs]
  · simp [addURIToQueue, NewRequest, hbuilt, hdone, hs, hfmt]

theorem accepted_cons_ok (w : World) (item : String) (rest : List String) (v : URL)
    (hp : w.urlParse item = .ok v) : accepted w (item :: rest) = item :: accepted w rest := by
  simp [accepted, List.filter_cons, hp]

theorem accepted_cons_error (w : World) (item : String) (rest : List String) (e : String)
    (hp : w.urlParse item = .error e) : accepted w (item :: rest) = accepted w rest := by
  simp [accepted, List.filter_cons, hp]

theorem enqueueAll_first_failure (w : World) (base : URL) (status : Nat → Int) (u : URL)
    (hbuilt : w.urlParse (w.urlString { base with Path := controlPath }) = .ok u)
    (hdone : ∀ m req, w.httpDo m req = .ok (status m)) (args : List String) :
    ∀ (n k : Nat), k < (accepted w args).length →
      (∀ i, i < k → status (n + i) = 200) → status (n + k) ≠ 200 →
      (enqueueAll w base n args).1
          = .fatal ("Enqueueing " ++ (accepted w args).getD k ""
              ++ ": /MediaRenderer/AVTransport/Control: " ++ toString (status (n + k)))
        ∧ (enqueueAll w base n args).2.cmds.map Prod.fst
          = ((accepted w args).take (k + 1)).map Command.enqueue
        ∧ (enqueueAll w base n args).2.posts.length = k + 1 := by
  induction args with
  | nil => intro n k hk; simp [accepted] at hk
  | cons item rest ih =>
    intro n k hk hok hfail
    rw [enqueueAll]
    cases hp : w.urlParse item with
    | error e =>
      rw [accepted_cons_error w item rest e hp] at hk ⊢
      have := ih n k hk hok hfail
      simpa [Effects.append] using this
    | ok v =>
      rw [accepted_cons_ok w item rest v hp] at hk ⊢
      obtain ⟨req, hreq⟩ := addURIToQueue_status w n base item status u hbuilt hdone
      cases k with
      | zero =>
        have hne : ¬ status n = 200 := by simpa using hfail
        rw [hreq]
        simp only [hne, if_false]
        refine ⟨?_, ?_, ?_⟩
        · rw [Sprintf_enqueueing]
          refine congrArg Exit.fatal ?_
          apply String.ext
          simp
        · simp
        · simp
      | succ j =>
        have h0 : status n = 200 := by simpa using hok 0 (Nat.succ_pos j)
        rw [hreq]
        simp only [h0, if_true]
        have hj : j < (accepted w rest).length := by simpa using hk
        have hokj : ∀ i, i < j → status (n + 1 + i) = 200 := by
          intro i hi
          have := hok (i + 1) (Nat.succ_lt_succ hi)
          rwa [Nat.add_assoc, Nat.add_comm 1 i]
        have hfailj : status (n + 1 + j) ≠ 200 := by
          rwa [Nat.add_assoc, Nat.add_comm 1 j]
        have := ih (n + 1) j hj hokj hfailj
        have hidx : n + 1 + j = n + (j + 1) := by omega
        rw [hidx] at this
        simpa [Effects.append] using this

theorem removeAll_status (w : World) (base : URL) (status : Nat → Int) (u : URL)
    (hbuilt : w.urlParse (w.urlString { base with Path := controlPath }) = .ok u)
    (hdone : ∀ m req, w.httpDo m req = .ok (status m)) (h0 : status 0 = 200) :
    ∃ req, removeAllTracksFromQueue w 0 base = (none, [req]) := by
  simp [removeAllTracksFromQueue, NewRequest, hbuilt, hdone, h0]

/-- C4: when every control call completes with a status, the clear call (if
any) succeeds, and position `k` among the accepted arguments is the first whose
call gets a status other than 200, the run ends with the fatal message for that
argument, the commands invoked are the clear (unless appending) followed by the
enqueues of the accepted arguments up to and including that one, and no
further request is posted. -/
theorem commands_stop_at_first_failure (w : World) (fl : Flags) (base : URL)
    (status : Nat → Int) (u : URL) (k : Nat)
    (hbuilt : w.urlParse (w.urlString { base with Path := controlPath }) = .ok u)
    (hdone : ∀ m req, w.httpDo m req = .ok (status m))
    (hclear : fl.append = false → status 0 = 200)
    (hk : k < (accepted w fl.args).length)
    (hok : ∀ i, i < k → status (callsBeforeEnqueue fl + i) = 200)
    (hfail : status (callsBeforeEnqueue fl + k) ≠ 200) :
    (commands w fl base).1
        = .fatal ("Enqueueing " ++ (accepted w fl.args).getD k ""
            ++ ": /MediaRenderer/AVTransport/Control: "
            ++ toString (status (callsBeforeEnqueue fl + k)))
      ∧ (commands w fl base).2.cmds.map Prod.fst
        = (if fl.append then [] else [Command.clear])
            ++ ((accepted w fl.args).take (k + 1)).map Command.enqueue
      ∧ (commands w fl base).2.posts.length = callsBeforeEnqueue fl + k + 1 := by
  cases ha : fl.append with
  | true =>
    simp only [callsBeforeEnqueue, ha, if_true] at hok hfail ⊢
    have := enqueueAll_first_failure w base status u hbuilt hdone fl.args 0 k hk hok hfail
    simpa [commands, ha] using this
  | false =>
    simp only [callsBeforeEnqueue, ha] at hok hfail ⊢
    obtain ⟨req, hreq⟩ := removeAll_status w base status u hbuilt hdone (hclear ha)
    have := enqueueAll_first_failure w base status u hbuilt hdone fl.args 1 k hk
      (by simpa using hok) (by simpa using hfail)
    simp only [commands, ha, hreq, Effects.append]
    refine ⟨by simpa using this.1, by simpa using this.2.1, ?_⟩
    simp [this.2.2]
    omega

/-- C4 at a concrete input: append unset, three arguments, the second enqueue
is answered with 500: the clear and two enqueues are invoked, the third is
not, and the run ends in a fatal exit. -/
theorem commands_stop_at_first_failure_witness :
    (commands (sampleWorld [] (fun n => if n = 2 then 500 else 200))
        ⟨"Living Room", false, ["http://a/1.mp3", "http://a/2.mp3", "http://a/3.mp3"]⟩
        ⟨"http", "", "", "10.0.0.3:1400", "/xml/device_description.xml", "", "", ""⟩).1
        = .fatal "Enqueueing http://a/2.mp3: /MediaRenderer/AVTransport/Control: 500"
      ∧ (commands (sampleWorld [] (fun n => if n = 2 then 500 else 200))
        ⟨"Living Room", false, ["http://a/1.mp3", "http://a/2.mp3", "http://a/3.mp3"]⟩
        ⟨"http", "", "", "10.0.0.3:1400", "/xml/device_description.xml", "", "", ""⟩).2.cmds.map
          Prod.fst
        = [Command.clear, Command.enqueue "http://a/1.mp3", Command.enqueue "http://a/2.mp3"] :=
  have h := commands_stop_at_first_failure
    (sampleWorld [] (fun n => if n = 2 then 500 else 200))
    ⟨"Living Room", false, ["http://a/1.mp3", "http://a/2.mp3", "http://a/3.mp3"]⟩
    ⟨"http", "", "", "10.0.0.3:1400", "/xml/device_description.xml", "", "", ""⟩
    (fun n => if n = 2 then 500 else 200)
    ⟨"http", "", "", "10.0.0.3:1400", "/MediaRenderer/AVTransport/Control", "", "", ""⟩ 1
    rfl (fun _ _ => rfl) (fun _ => by decide) (by decide) (by decide) (by decide)
  ⟨h.1.trans (by decide), h.2.1.trans (by decide)⟩

/-- C5: without append mode the commands invoked start with exactly one clear,
every later command is an enqueue, and a failed clear is the only command;
with append mode no clear is invoked; and when the clear succeeds the run
continues exactly as the append-mode run does on the world left after that
one call: same exit, same enqueue commands. -/
theorem commands_clear_only_without_append (w : World) (fl : Flags) (base : URL) :
    (fl.append = false →
        ∃ rest, (commands w fl base).2.cmds
            = (Command.clear, (removeAllTracksFromQueue w 0 base).1) :: rest
          ∧ (∀ c ∈ rest, c.1 ≠ Command.clear)
          ∧ ((removeAllTracksFromQueue w 0 base).1 ≠ none → rest = []))
      ∧ (fl.append = true → ∀ c ∈ (commands w fl base).2.cmds, c.1 ≠ Command.clear)
      ∧ (fl.append = false → (removeAllTracksFromQueue w 0 base).1 = none →
          (commands w fl base).1
              = (commands (w.afterDo 1) { fl with append := true } base).1
            ∧ (commands w fl base).2.cmds
              = (Command.clear, none)
                  :: (commands (w.afterDo 1) { fl with append := true } base).2.cmds) := by
  refine ⟨?_, ?_, ?_⟩
  · intro ha
    rcases hr : removeAllTracksFromQueue w 0 base with ⟨_ | e, reqs⟩
    · refine ⟨(enqueueAll w base reqs.length fl.args).2.cmds, ?_, ?_, ?_⟩
      · simp [commands, ha, hr, Effects.append]
      · exact enqueueAll_no_clear w base fl.args reqs.length
      · intro h; exact absurd rfl h
    · exact ⟨[], by simp [commands, ha, hr], by simp, fun _ => rfl⟩
  · intro ha c hc
    have hcmd : commands w fl base = enqueueAll w base 0 fl.args := by simp [commands, ha]
    rw [hcmd] at hc
    exact enqueueAll_no_clear w base fl.args 0 c hc
  · intro ha hnil
    rcases hr : removeAllTracksFromQueue w 0 base with ⟨e, reqs⟩
    rw [hr] at hnil
    simp only at hnil
    subst hnil
    have hlen := removeAll_nil_posts w base reqs hr
    have hshift : commands (w.afterDo 1) { fl with append := true } base
        = enqueueAll w base 1 fl.args := by
      simp [commands, enqueueAll_afterDo]
    rw [hshift]
    simp [commands, ha, hr, hlen, Effects.append]

/-- C5 at a concrete input: one argument, every call answered with 200; without
append the clear comes first and the enqueue follows, with append the enqueue
alone is invoked. -/
theorem commands_clear_only_without_append_witness :
    (commands (sampleWorld [] (fun _ => 200)) ⟨"Living Room", false, ["http://a/1.mp3"]⟩
        ⟨"http", "", "", "10.0.0.3:1400", "/xml/device_description.xml", "", "", ""⟩).2.cmds
        = [(Command.clear, none), (Command.enqueue "http://a/1.mp3", none)]
      ∧ (commands ((sampleWorld [] (fun _ => 200)).afterDo 1)
        ⟨"Living Room", true, ["http://a/1.mp3"]⟩
        ⟨"http", "", "", "10.0.0.3:1400", "/xml/device_description.xml", "", "", ""⟩).2.cmds
        = [(Command.enqueue "http://a/1.mp3", none)] :=
  have h := (commands_clear_only_without_append (sampleWorld [] (fun _ => 200))
    ⟨"Living Room", false, ["http://a/1.mp3"]⟩
    ⟨"http", "", "", "10.0.0.3:1400", "/xml/device_description.xml", "", "", ""⟩).2.2
      rfl (by decide)
  ⟨h.2.trans (by decide), by decide⟩

theorem not_found_ne_enqueueing (name item e : String) :
    "Enqueueing " ++ item ++ ": " ++ e ≠ "Device not found: " ++ name := by
  intro h
  have := congrArg (fun s => s.data.head?) h
  simp at this

theorem not_found_ne_clearing (name a e : String) :
    "Clearing queue: " ++ a ++ ": " ++ e ≠ "Device not found: " ++ name := by
  intro h
  have := congrArg (fun s => s.data.head?) h
  simp at this

theorem commands_exit_ne_not_found (w : World) (fl : Flags) (base : URL) (name : String) :
    (commands w fl base).1 ≠ .fatal ("Device not found: " ++ name) := by
  have henq : ∀ n, (enqueueAll w base n fl.args).1 ≠ .fatal ("Device not found: " ++ name) := by
    intro n h
    rcases enqueueAll_exit w base fl.args n with h1 | ⟨item, e, h1⟩
    · rw [h1] at h; exact Exit.noConfusion h
    · rw [h1] at h
      exact not_found_ne_enqueueing name item e (Exit.fatal.inj h)
  cases ha : fl.append with
  | true => simpa [commands, ha] using henq 0
  | false =>
    rcases hr : removeAllTracksFromQueue w 0 base with ⟨_ | e, reqs⟩
    · simpa [commands, ha, hr] using henq reqs.length
    · simp only [commands, ha, hr]
      intro h
      rw [Sprintf_clearing] at h
      exact not_found_ne_clearing name fl.device e (Exit.fatal.inj h)

theorem commands_gets (w : World) (fl : Flags) (base : URL) :
    (commands w fl base).2.gets = [] := by
  cases ha : fl.append with
  | true => simpa [commands, ha] using enqueueAll_gets w base fl.args 0
  | false =>
    rcases hr : removeAllTracksFromQueue w 0 base with ⟨_ | e, reqs⟩
    · simpa [commands, ha, hr, Effects.append] using enqueueAll_gets w base fl.args reqs.length
    · simp [commands, ha, hr]

/-- C6: with the device flag set and a non-empty candidate list returned by
`Search`, the run ends with "Device not found: <name>" exactly when no
candidate, at its place in the scan, has a parsable location whose descriptor
fetch and decode succeed with the target's room name; and the descriptors
fetched by the run are those of all candidates with a parsable location, in
order, so the scan never stops early. -/
theorem main_device_not_found_iff (w : World) (fl : Flags) (found : List Header)
    (lg : List String) (hdev : fl.device ≠ "")
    (hsearch : Search w "urn:schemas-upnp-org:device:ZonePlayer:1" = (.returned found, lg))
    (hne : found ≠ []) :
    ((main w fl).1 = .fatal ("Device not found: " ++ fl.device)
        ↔ ∀ a g b, found = a ++ g :: b → candidateMatch w fl.device (fetches w a) g = none)
      ∧ (main w fl).2.gets = found.filterMap (locationURL w) := by
  have hlen : ¬ found.length = 0 := by
    intro h; exact hne (List.length_eq_zero.mp h)
  cases hr : (resolve w fl.device 0 none found).1 with
  | none =>
    have hmain : main w fl = (.fatal (Sprintf "Device not found: %s" [.str fl.device]),
        Effects.append ⟨lg, [], [], []⟩ (resolve w fl.device 0 none found).2) := by
      simp [main, hdev, hsearch, hlen, hr]
    rw [hmain]
    refine ⟨⟨fun _ a g b hab => ?_, fun _ => by simp [Sprintf_not_found]⟩, ?_⟩
    · cases hm : candidateMatch w fl.device (fetches w a) g with
      | none => rfl
      | some v =>
        exfalso
        have := resolve_some_match w fl.device g b v a 0 none (by simpa using hm)
        rw [← hab] at this
        exact this hr
    · simp [Effects.append, resolve_gets]
  | some v =>
    have hmain : main w fl = ((commands w fl v).1,
        Effects.append (Effects.append ⟨lg, [], [], []⟩ (resolve w fl.device 0 none found).2)
          (commands w fl v).2) := by
      simp [main, hdev, hsearch, hlen, hr]
    rw [hmain]
    refine ⟨⟨fun h => absurd h (commands_exit_ne_not_found w fl v fl.device), fun h => ?_⟩, ?_⟩
    · exfalso
      have := resolve_no_match w fl.device found 0 none (by simpa using h)
      rw [hr] at this
      exact Option.noConfusion this
    · simp [Effects.append, resolve_gets, commands_gets]

/-- C6 at a concrete input: a zone player whose location does not parse
answers before the player in the living room; the run does not end with
"Device not found", and the one parsable descriptor was fetched. -/
theorem main_device_not_found_iff_witness :
    (main (sampleWorld [.data answerBad, .data answer3] (fun _ => 200))
        ⟨"Living Room", true, []⟩).1 = .success
      ∧ ¬ (∀ a g b,
          [answerHeader "http://10.0.0.4:xyz/desc.xml",
            answerHeader "http://10.0.0.3:1400/xml/device_description.xml"] = a ++ g :: b →
          candidateMatch (sampleWorld [.data answerBad, .data answer3] (fun _ => 200))
            "Living Room"
            (fetches (sampleWorld [.data answerBad, .data answer3] (fun _ => 200)) a) g = none)
      ∧ (main (sampleWorld [.data answerBad, .data answer3] (fun _ => 200))
        ⟨"Living Room", true, []⟩).2.gets
        = ["http://10.0.0.3:1400/xml/device_description.xml"] :=
  have h := main_device_not_found_iff
    (sampleWorld [.data answerBad, .data answer3] (fun _ => 200)) ⟨"Living Room", true, []⟩
    [answerHeader "http://10.0.0.4:xyz/desc.xml",
      answerHeader "http://10.0.0.3:1400/xml/device_description.xml"] []
    (by decide) (by decide) (by decide)
  ⟨by decide, fun hall => absurd (h.1.mpr hall) (by decide), h.2.trans (by decide)⟩

theorem main_command_phase (w : World) (fl : Flags) (found : List Header) (lg : List String)
    (deviceURL : URL) (hdev : fl.device ≠ "")
    (hsearch : Search w "urn:schemas-upnp-org:device:ZonePlayer:1" = (.returned found, lg))
    (hne : found ≠ [])
    (hres : (resolve w fl.device 0 none found).1 = some deviceURL) :
    (main w fl).1 = (commands w fl deviceURL).1
      ∧ (main w fl).2.cmds = (commands w fl deviceURL).2.cmds
      ∧ (main w fl).2.posts = (commands w fl deviceURL).2.posts := by
  have hlen : ¬ found.length = 0 := by
    intro h; exact hne (List.length_eq_zero.mp h)
  have hcmds : ∀ (n : Nat) (cur : Option URL) (fs : List Header),
      (resolve w fl.device n cur fs).2.cmds = [] ∧ (resolve w fl.device n cur fs).2.posts = [] := by
    intro n cur fs
    induction fs generalizing n cur with
    | nil => exact ⟨rfl, rfl⟩
    | cons f fs ih =>
      rw [resolve]
      cases hp : w.urlParse (f.Get "Location") with
      | error e => simpa [Effects.append] using ih n cur
      | ok u =>
        rcases hf : fetchDevice w n u with ⟨_ | d, l⟩
        · simpa [Effects.append, hf] using ih (n + 1) cur
        · simpa [Effects.append, hf] using
            ih (n + 1) (if d.RoomName = fl.device then some u else cur)
  have h := hcmds 0 none found
  simp [main, hdev, hsearch, hlen, hres, Effects.append, h.1, h.2]

end Sonos
